import Mathlib

/-!
Verification of the laf reconciliation substrate.

The persisted schema (Prisma models and enums) is embedded from the source
schema file; the reconciliation engine's behaviour (lock manager, transition
executor, retry controller) is not part of the given sources and is modelled
from the specification, as marked on each definition.
Times are modelled as natural numbers (milliseconds since epoch).
-/

namespace Laf

/-! ### Lock Manager (spec section 4.1) -/

/-- Modelled from the spec: the Lock Manager predicate isExpired(record, now)
(section 4.1).  A record is unlocked (claimable) when lockedAt is absent or
older than the lease duration: a lease acquired at time T expires at
T + leaseDuration. -/
def isExpired (leaseDuration : Nat) (lockedAt : Option Nat) (now : Nat) : Bool :=
  match lockedAt with
  | none => true
  | some t => decide (t + leaseDuration ≤ now)

/-- Result of tryAcquire: a lease token (the grant timestamp) or Denied. -/
inductive AcquireResult where
  | granted (token : Nat)
  | denied
deriving DecidableEq

/-- Modelled from the spec: tryAcquire(recordId, leaseDuration) (section 4.1).
It succeeds only via an atomic compare-and-set: lockedAt must currently be null
or older than leaseDuration; on success it is set to now in the same atomic
step and the returned token equals that timestamp; otherwise Denied is
returned and the record is unchanged.  Returns the pair (new lockedAt, result). -/
def tryAcquire (leaseDuration : Nat) (lockedAt : Option Nat) (now : Nat) :
    Option Nat × AcquireResult :=
  if isExpired leaseDuration lockedAt now then (some now, .granted now)
  else (lockedAt, .denied)

/-- Modelled from the spec: release(recordId, token) (section 4.1): a no-op
when the token no longer matches the record's current lockedAt; on a match the
lock timestamp is cleared. -/
def release (lockedAt : Option Nat) (token : Nat) : Option Nat :=
  if lockedAt = some token then none else lockedAt

/-- An operation on one record's lock field, to be paired with its time. -/
inductive LockOp where
  | acquire
  | release (token : Nat)
deriving DecidableEq

/-- One step of the lock-state history: apply one timed operation. -/
def stepOp (leaseDuration : Nat) (s : Option Nat) (e : Nat × LockOp) : Option Nat :=
  match e.2 with
  | .acquire => (tryAcquire leaseDuration s e.1).1
  | .release tok => release s tok

/-- Run a timed operation history from a lock state. -/
def runOps (leaseDuration : Nat) (s : Option Nat) (es : List (Nat × LockOp)) : Option Nat :=
  es.foldl (stepOp leaseDuration) s

/-- Invariant carried between two successful acquisitions on one record: after
a grant at time t1 whose token is never released, the lock field either still
holds t1, or the time lower bound lo has passed t1 + D, or the field holds a
later grant u with t1 + D ≤ u.  lo is a lower bound on all later event times. -/
def AcqInv (D t1 : Nat) (s : Option Nat) (lo : Nat) : Prop :=
  (s = some t1 ∧ t1 ≤ lo) ∨ t1 + D ≤ lo ∨ (∃ u, s = some u ∧ t1 + D ≤ u ∧ u ≤ lo)

lemma acqInv_step {D t1 : Nat} {s : Option Nat} {lo t : Nat} {op : LockOp}
    (hlo : lo ≤ t) (hop : op ≠ LockOp.release t1) (h : AcqInv D t1 s lo) :
    AcqInv D t1 (stepOp D s (t, op)) t := by
  rcases h with ⟨hs, hle⟩ | hle | ⟨u, hs, hu1, hu2⟩
  · subst hs
    cases op with
    | acquire =>
      by_cases hc : t1 + D ≤ t
      · refine Or.inr (Or.inr ⟨t, ?_, hc, le_refl t⟩)
        simp [stepOp, tryAcquire, isExpired, hc]
      · refine Or.inl ⟨?_, le_trans hle hlo⟩
        simp [stepOp, tryAcquire, isExpired, hc]
    | release tok =>
      have htok : tok ≠ t1 := fun hcon => hop (by rw [hcon])
      refine Or.inl ⟨?_, le_trans hle hlo⟩
      simp only [stepOp, release]
      have hne : ¬ (some t1 = some tok) := fun hcon => htok (Option.some.inj hcon).symm
      simp [hne]
  · exact Or.inr (Or.inl (le_trans hle hlo))
  · subst hs
    cases op with
    | acquire =>
      by_cases hc : u + D ≤ t
      · refine Or.inr (Or.inr ⟨t, ?_, le_trans hu1 (le_trans (Nat.le_add_right u D) hc), le_refl t⟩)
        simp [stepOp, tryAcquire, isExpired, hc]
      · refine Or.inr (Or.inr ⟨u, ?_, hu1, le_trans hu2 hlo⟩)
        simp [stepOp, tryAcquire, isExpired, hc]
    | release tok =>
      by_cases hc : u = tok
      · subst hc
        refine Or.inr (Or.inl (le_trans hu1 (le_trans hu2 hlo)))
      · refine Or.inr (Or.inr ⟨u, ?_, hu1, le_trans hu2 hlo⟩)
        have : ¬ (some u = some tok) := fun hcon => hc (Option.some.inj hcon)
        simp [stepOp, release, this]

lemma acqInv_run {D t1 t2 : Nat} :
    ∀ (es : List (Nat × LockOp)) (s : Option Nat) (lo : Nat),
    List.Chain (fun a b => a ≤ b) lo (es.map Prod.fst ++ [t2]) →
    (∀ e ∈ es, e.2 ≠ LockOp.release t1) →
    AcqInv D t1 s lo →
    ∃ lo2, lo2 ≤ t2 ∧ AcqInv D t1 (runOps D s es) lo2 := by
  intro es
  induction es with
  | nil =>
    intro s lo hchain _ hinv
    exact ⟨lo, (List.chain_cons.mp hchain).1, hinv⟩
  | cons e rest ih =>
    intro s lo hchain hrel hinv
    obtain ⟨hlo, hchain2⟩ := List.chain_cons.mp hchain
    have hstep : AcqInv D t1 (stepOp D s (e.1, e.2)) e.1 :=
      acqInv_step hlo (hrel e (List.mem_cons_self e rest)) hinv
    have hrest : ∀ x ∈ rest, x.2 ≠ LockOp.release t1 :=
      fun x hx => hrel x (List.mem_cons_of_mem e hx)
    have := ih (stepOp D s (e.1, e.2)) e.1 hchain2 hrest hstep
    simpa [runOps, List.foldl_cons] using this

lemma acqInv_expired {D t1 t2 lo : Nat} {s : Option Nat} (hlo : lo ≤ t2)
    (hinv : AcqInv D t1 s lo) (hexp : isExpired D s t2 = true) : t1 + D ≤ t2 := by
  rcases hinv with ⟨hs, _⟩ | hle | ⟨u, hs, hu1, _⟩
  · subst hs
    simpa [isExpired] using hexp
  · exact le_trans hle hlo
  · subst hs
    have : u + D ≤ t2 := by simpa [isExpired] using hexp
    exact le_trans hu1 (le_trans (Nat.le_add_right u D) this)

/-- Claim C1: two successful tryAcquire calls on the same record never overlap
in validity.  If a first call at time t1 is granted token tok1, the token is
never released during the intervening history B, event times are monotone, and
a second call at time t2 is also granted (token tok2), then tok1 = t1,
tok2 = t2 and tok1 + leaseDuration ≤ tok2: the first lease's validity window,
which ends at tok1 + leaseDuration, is already over when the second begins, so
no instant lies in both leases' validity windows. -/
theorem tryAcquire_no_overlap (D : Nat) (s0 : Option Nat) (t1 t2 tok1 tok2 : Nat)
    (B : List (Nat × LockOp))
    (hchain : List.Chain (fun a b => a ≤ b) t1 (B.map Prod.fst ++ [t2]))
    (h1 : (tryAcquire D s0 t1).2 = AcquireResult.granted tok1)
    (hrel : ∀ e ∈ B, e.2 ≠ LockOp.release tok1)
    (h2 : (tryAcquire D (runOps D (tryAcquire D s0 t1).1 B) t2).2 =
      AcquireResult.granted tok2) :
    tok1 = t1 ∧ tok2 = t2 ∧ tok1 + D ≤ tok2 := by
  by_cases hexp1 : isExpired D s0 t1 = true
  · have hfst : (tryAcquire D s0 t1).1 = some t1 := by simp [tryAcquire, hexp1]
    have htok1 : tok1 = t1 := by
      have := h1
      simp [tryAcquire, hexp1] at this
      exact this.symm
    subst htok1
    rw [hfst] at h2
    have hinv0 : AcqInv D tok1 (some tok1) tok1 :=
      Or.inl ⟨rfl, le_refl tok1⟩
    obtain ⟨lo2, hlo2, hinv⟩ := acqInv_run B (some tok1) tok1 hchain hrel hinv0
    by_cases hexp2 : isExpired D (runOps D (some tok1) B) t2 = true
    · have htok2 : tok2 = t2 := by
        have := h2
        simp [tryAcquire, hexp2] at this
        exact this.symm
      subst htok2
      exact ⟨rfl, rfl, acqInv_expired hlo2 hinv hexp2⟩
    · exfalso
      simp [tryAcquire, hexp2] at h2
  · exfalso
    simp [tryAcquire, hexp1] at h1

/-- Witness for C1 at a concrete history: lease duration 10, first grant at
time 0 on an unlocked record, empty intervening history, second grant at
time 10. -/
theorem tryAcquire_no_overlap_witness :
    (0 : Nat) = 0 ∧ (10 : Nat) = 10 ∧ (0 : Nat) + 10 ≤ 10 :=
  tryAcquire_no_overlap 10 none 0 10 0 10 []
    (List.chain_cons.mpr ⟨by decide, List.Chain.nil⟩) (by decide)
    (by intro e he; cases he) (by decide)

/-- Claim C2: tryAcquire succeeds exactly when lockedAt is absent or older than
the lease duration; on success lockedAt becomes now in the same compare-and-set
step and the token equals that timestamp; otherwise Denied is returned and the
record is unchanged. -/
theorem tryAcquire_cas_spec (D : Nat) (lockedAt : Option Nat) (now : Nat) :
    (isExpired D lockedAt now = true ↔
      (lockedAt = none ∨ ∃ t, lockedAt = some t ∧ t + D ≤ now)) ∧
    (isExpired D lockedAt now = true →
      tryAcquire D lockedAt now = (some now, AcquireResult.granted now)) ∧
    (isExpired D lockedAt now = false →
      tryAcquire D lockedAt now = (lockedAt, AcquireResult.denied)) := by
  refine ⟨?_, ?_, ?_⟩
  · cases lockedAt with
    | none => simp [isExpired]
    | some t => simp [isExpired]
  · intro h; simp [tryAcquire, h]
  · intro h; simp [tryAcquire, h]

/-- Witness for C2 at a concrete record: lease duration 10, lockedAt = some 3,
now = 13 (expired, acquirable) . -/
theorem tryAcquire_cas_spec_witness :
    (isExpired 10 (some 3) 13 = true ↔
      ((some 3 : Option Nat) = none ∨ ∃ t, (some 3 : Option Nat) = some t ∧ t + 10 ≤ 13)) ∧
    (isExpired 10 (some 3) 13 = true →
      tryAcquire 10 (some 3) 13 = (some 13, AcquireResult.granted 13)) ∧
    (isExpired 10 (some 3) 13 = false →
      tryAcquire 10 (some 3) 13 = (some 3, AcquireResult.denied)) :=
  tryAcquire_cas_spec 10 (some 3) 13

/-- Claim C3: a lease acquired at time T and never released (the lock field
still holds T) is claimable by another tryAcquire at every time
now ≥ T + leaseDuration, and at no time strictly before. -/
theorem lease_reclaimable_exactly_at_expiry (D T now : Nat) :
    (tryAcquire D (some T) now).2 = AcquireResult.granted now ↔ T + D ≤ now := by
  constructor
  · intro h
    by_cases hc : T + D ≤ now
    · exact hc
    · exfalso
      simp [tryAcquire, isExpired, hc] at h
  · intro h
    simp [tryAcquire, isExpired, h]

/-! ### Enums of the persisted schema (embedded from the Prisma source file) -/

/-- Desired state of an application (enum ApplicationState in the schema). -/
inductive ApplicationState where
  | Running
  | Stopped
  | Restarting
  | Deleted
deriving DecidableEq

/-- Actual state of an application (enum ApplicationPhase in the schema). -/
inductive ApplicationPhase where
  | Creating
  | Created
  | Starting
  | Started
  | Stopping
  | Stopped
  | Deleting
  | Deleted
deriving DecidableEq

/-- The source identifier of each ApplicationPhase member. -/
def ApplicationPhase.name : ApplicationPhase → String
  | .Creating => "Creating"
  | .Created => "Created"
  | .Starting => "Starting"
  | .Started => "Started"
  | .Stopping => "Stopping"
  | .Stopped => "Stopped"
  | .Deleting => "Deleting"
  | .Deleted => "Deleted"

/-- All members of ApplicationPhase, in source order. -/
def ApplicationPhase.all : List ApplicationPhase :=
  [.Creating, .Created, .Starting, .Started, .Stopping, .Stopped, .Deleting, .Deleted]

lemma ApplicationPhase.mem_all_application : ∀ p : ApplicationPhase, p ∈ ApplicationPhase.all := by
  intro p; cases p <;> simp [ApplicationPhase.all]

/-- Desired state of a storage user or bucket (enum StorageState). -/
inductive StorageState where
  | Active
  | Inactive
  | Deleted
deriving DecidableEq

/-- Actual state of a storage user or bucket (enum StoragePhase). -/
inductive StoragePhase where
  | Creating
  | Created
  | Deleting
  | Deleted
deriving DecidableEq

/-- The source identifier of each StoragePhase member. -/
def StoragePhase.name : StoragePhase → String
  | .Creating => "Creating"
  | .Created => "Created"
  | .Deleting => "Deleting"
  | .Deleted => "Deleted"

/-- All members of StoragePhase, in source order. -/
def StoragePhase.all : List StoragePhase :=
  [.Creating, .Created, .Deleting, .Deleted]

lemma StoragePhase.mem_all_storage : ∀ p : StoragePhase, p ∈ StoragePhase.all := by
  intro p; cases p <;> simp [StoragePhase.all]

/-- enum SubscriptionState in the schema. -/
inductive SubscriptionState where
  | Created
  | Deleted
deriving DecidableEq

/-- enum SubscriptionPhase in the schema. -/
inductive SubscriptionPhase where
  | Pending
  | Valid
  | Expired
  | ExpiredAndStopped
  | Deleted
deriving DecidableEq

/-- enum SubscriptionRenewalPhase in the schema. -/
inductive SubscriptionRenewalPhase where
  | Pending
  | Paid
  | Failed
deriving DecidableEq

/-- enum SubscriptionUpgradePhase in the schema. -/
inductive SubscriptionUpgradePhase where
  | Pending
  | Completed
  | Failed
deriving DecidableEq

/-- enum AccountChargePhase in the schema. -/
inductive AccountChargePhase where
  | Pending
  | Paid
  | Failed
deriving DecidableEq

/-- enum DatabaseState in the schema. -/
inductive DatabaseState where
  | Active
  | Inactive
  | Deleted
deriving DecidableEq

/-- enum DatabasePhase in the schema. -/
inductive DatabasePhase where
  | Creating
  | Created
  | Deleting
  | Deleted
deriving DecidableEq

/-- enum TriggerState in the schema (desired state of a cron trigger). -/
inductive TriggerState where
  | Active
  | Inactive
  | Deleted
deriving DecidableEq

/-- enum TriggerPhase in the schema (actual state of a cron trigger). -/
inductive TriggerPhase where
  | Creating
  | Created
  | Deleting
  | Deleted
deriving DecidableEq

/-- enum DomainState in the schema (desired state of a domain resource). -/
inductive DomainState where
  | Active
  | Inactive
  | Deleted
deriving DecidableEq

/-- enum DomainPhase in the schema (actual state of a domain resource). -/
inductive DomainPhase where
  | Creating
  | Created
  | Deleting
  | Deleted
deriving DecidableEq

/-! ### Persisted field layout of the reconcilable models (from the Prisma source)

Each list holds the persisted (non-relation) field names of one model, in
source order.  Relation fields (e.g. the region or application back-links) are
not persisted columns and are omitted. -/

/-- Persisted fields of model Application. -/
def applicationFields : List String :=
  ["id", "name", "appid", "regionId", "runtimeId", "tags", "state", "phase",
   "createdAt", "updatedAt", "lockedAt", "createdBy"]

/-- Persisted fields of model Subscription. -/
def subscriptionFields : List String :=
  ["id", "input", "bundleId", "appid", "state", "phase", "renewalPlan",
   "expiredAt", "lockedAt", "createdAt", "updatedAt", "createdBy"]

/-- Persisted fields of model SubscriptionRenewal. -/
def subscriptionRenewalFields : List String :=
  ["id", "subscriptionId", "duration", "amount", "phase", "message",
   "lockedAt", "createdAt", "updatedAt", "createdBy"]

/-- Persisted fields of model SubscriptionUpgrade. -/
def subscriptionUpgradeFields : List String :=
  ["id", "appid", "subscriptionId", "originalBundleId", "targetBundleId",
   "phase", "restart", "message", "lockedAt", "createdAt", "updatedAt"]

/-- Persisted fields of model AccountChargeOrder. -/
def accountChargeOrderFields : List String :=
  ["id", "accountId", "amount", "currency", "phase", "channel", "result",
   "message", "createdAt", "lockedAt", "updatedAt", "createdBy"]

/-- Persisted fields of model StorageUser. -/
def storageUserFields : List String :=
  ["id", "appid", "accessKey", "secretKey", "state", "phase", "lockedAt",
   "createdAt", "updatedAt"]

/-- Persisted fields of model StorageBucket. -/
def storageBucketFields : List String :=
  ["id", "appid", "name", "shortName", "policy", "state", "phase", "lockedAt",
   "createdAt", "updatedAt"]

/-- Persisted fields of model Database. -/
def databaseFields : List String :=
  ["id", "appid", "name", "user", "password", "state", "phase", "lockedAt",
   "createdAt", "updatedAt"]

/-- Persisted fields of model CronTrigger. -/
def cronTriggerFields : List String :=
  ["id", "appid", "desc", "cron", "target", "state", "phase", "lockedAt",
   "createdAt", "updatedAt"]

/-- Persisted fields of model RuntimeDomain. -/
def runtimeDomainFields : List String :=
  ["id", "appid", "domain", "state", "phase", "lockedAt", "createdAt",
   "updatedAt"]

/-- Persisted fields of model BucketDomain. -/
def bucketDomainFields : List String :=
  ["id", "appid", "bucketName", "domain", "state", "phase", "lockedAt",
   "createdAt", "updatedAt"]

/-- Persisted fields of model WebsiteHosting. -/
def websiteHostingFields : List String :=
  ["id", "appid", "bucketName", "domain", "isCustom", "state", "phase",
   "createdAt", "updatedAt", "lockedAt"]

/-- The field lists of every model that plugs into the reconciliation engine,
i.e. every model carrying a lockedAt lease timestamp. -/
def engineKindFields : List (List String) :=
  [applicationFields, subscriptionFields, subscriptionRenewalFields,
   subscriptionUpgradeFields, accountChargeOrderFields, storageUserFields,
   storageBucketFields, databaseFields, cronTriggerFields,
   runtimeDomainFields, bucketDomainFields, websiteHostingFields]

/-- Counterexample to claim C7: the Application and Subscription models plug
into the engine (they carry the lockedAt lease timestamp) yet neither persists
a message field, so the optional message of the Resource Record is not present
verbatim for every engine resource kind. -/
theorem application_subscription_lack_message :
    applicationFields.contains "lockedAt" = true ∧
    applicationFields.contains "message" = false ∧
    subscriptionFields.contains "lockedAt" = true ∧
    subscriptionFields.contains "message" = false := by
  decide

/-- Claim C7 (amended): every model that plugs into the engine persists the
identity, actualPhase, lockedAt and audit timestamp fields verbatim; the
desiredState field is persisted (as state) by the nine lifecycle kinds but not
by the three order-like kinds, and the optional message field is persisted
only by SubscriptionRenewal, SubscriptionUpgrade and AccountChargeOrder. -/
theorem engine_kinds_persist_record_fields :
    (engineKindFields.all fun fs => fs.contains "id" && fs.contains "phase" &&
      fs.contains "lockedAt" && fs.contains "createdAt" &&
      fs.contains "updatedAt") = true ∧
    (([applicationFields, subscriptionFields, storageUserFields,
       storageBucketFields, databaseFields, cronTriggerFields,
       runtimeDomainFields, bucketDomainFields, websiteHostingFields].all
      fun fs => fs.contains "state" && !(fs.contains "message")) = true) ∧
    (([subscriptionRenewalFields, subscriptionUpgradeFields,
       accountChargeOrderFields].all
      fun fs => fs.contains "message" && !(fs.contains "state")) = true) := by
  decide

/-- Counterexample to claim C4: the phase enums of the Application and Storage
resource kinds contain no Failed member at all (their members are exactly the
listed ones), so for these kinds a Fatal driver outcome cannot move actualPhase
to a kind-specific terminal Failed phase. -/
theorem no_failed_phase_for_application_storage :
    (ApplicationPhase.all.map ApplicationPhase.name).contains "Failed" = false ∧
    (StoragePhase.all.map StoragePhase.name).contains "Failed" = false := by
  decide

/-! ### Driver Adapter outcomes and the Retry/Backoff Controller -/

/-- Driver Adapter outcome (spec section 4.2). -/
inductive Outcome where
  | Success
  | Retryable (reason : String)
  | Fatal (reason : String)
deriving DecidableEq

/-- Modelled from the spec: the reconciliation state (actual phase, message,
stored attempt counter) of a record of a kind whose phase enum has a terminal
Failed member; the phase type is AccountChargePhase from the source schema. -/
structure ChargeRecord where
  phase : AccountChargePhase
  message : Option String
  attempts : Nat
deriving DecidableEq

/-- Modelled from the spec: Fatal outcome handling (section 4.3): actualPhase
moves to the kind's terminal Failed phase and message is set to the reason. -/
def applyFatal (r : ChargeRecord) (reason : String) : ChargeRecord :=
  { r with phase := .Failed, message := some reason }

/-- Modelled from the spec: one reconciliation attempt against an adapter that
always answers Retryable, with an explicit stored attempt counter
(section 4.5).  The attempt leaves the phase unchanged and records the reason;
once the kind-specific maximum number of attempts is reached the Retryable
outcome is escalated to Fatal, which moves the phase to Failed.  A record
already in the terminal Failed phase is converged and is left unchanged. -/
def retryStep (maxAttempts : Nat) (reason : String) (r : ChargeRecord) : ChargeRecord :=
  if r.phase = .Failed then r
  else if maxAttempts ≤ r.attempts + 1 then
    { phase := .Failed, message := some reason, attempts := r.attempts + 1 }
  else { r with message := some reason, attempts := r.attempts + 1 }

/-- A freshly created charge order: phase Pending (the source schema default),
no message, no attempts yet. -/
def chargeOrderInit : ChargeRecord :=
  { phase := .Pending, message := none, attempts := 0 }

lemma retryStep_iterate_lt (m : Nat) (reason : String) :
    ∀ k, k < m → (retryStep m reason)^[k] chargeOrderInit =
      { phase := .Pending, message := if k = 0 then none else some reason,
        attempts := k } := by
  intro k
  induction k with
  | zero => intro _; simp [chargeOrderInit]
  | succ j ih =>
    intro hk
    have hj : j < m := Nat.lt_of_succ_lt hk
    rw [Function.iterate_succ_apply', ih hj]
    have hne : ¬ (m ≤ j + 1) := Nat.not_le_of_lt hk
    simp [retryStep, hne]

lemma retryStep_iterate_ge (m : Nat) (reason : String) (hm : 1 ≤ m) :
    ∀ n, m ≤ n → ((retryStep m reason)^[n] chargeOrderInit).phase =
      AccountChargePhase.Failed := by
  intro n hn
  induction n, hn using Nat.le_induction with
  | base =>
    obtain ⟨j, rfl⟩ : ∃ j, m = j + 1 := ⟨m - 1, (Nat.succ_pred_eq_of_pos hm).symm⟩
    rw [Function.iterate_succ_apply',
      retryStep_iterate_lt (j + 1) reason j (Nat.lt_succ_self j)]
    simp [retryStep]
  | succ n hn ih =>
    rw [Function.iterate_succ_apply']
    simp [retryStep, ih]

/-- Claim C4 (amended): for a resource kind whose phase enum has a terminal
Failed member (here AccountChargePhase), a Fatal driver outcome sets the
record's message and moves the phase to the terminal Failed phase, and under
an adapter that always answers Retryable a fresh record reaches the Failed
terminal phase after exactly the configured maximum number of attempts and
never before. -/
theorem fatal_and_retry_budget (r : ChargeRecord) (reason : String) (m n : Nat)
    (hm : 1 ≤ m) :
    ((applyFatal r reason).phase = AccountChargePhase.Failed ∧
      (applyFatal r reason).message = some reason) ∧
    (((retryStep m reason)^[n] chargeOrderInit).phase =
      AccountChargePhase.Failed ↔ m ≤ n) := by
  refine ⟨⟨rfl, rfl⟩, ?_, ?_⟩
  · intro h
    by_contra hc
    have hn : n < m := Nat.lt_of_not_le hc
    rw [retryStep_iterate_lt m reason n hn] at h
    exact absurd h (by simp)
  · intro h
    exact retryStep_iterate_ge m reason hm n h

/-- Witness for the amended C4 at concrete inputs: three maximum attempts, a
fresh charge order, three attempts taken. -/
theorem fatal_and_retry_budget_witness :
    ((applyFatal chargeOrderInit "e").phase = AccountChargePhase.Failed ∧
      (applyFatal chargeOrderInit "e").message = some "e") ∧
    (((retryStep 3 "e")^[3] chargeOrderInit).phase =
      AccountChargePhase.Failed ↔ 3 ≤ 3) :=
  fatal_and_retry_budget chargeOrderInit "e" 3 3 (by decide)

/-! ### Generic Resource Record and Retryable outcome handling -/

/-- Modelled from the spec: the Resource Record shape (section 3) common to
every reconcilable resource: identity, owner key, desired state, actual phase,
lock timestamp, optional message, audit timestamps. -/
structure ResourceRecord (State Phase : Type) where
  id : String
  ownerKey : String
  desiredState : State
  actualPhase : Phase
  lockedAt : Option Nat
  message : Option String
  createdAt : Nat
  updatedAt : Nat

/-- Modelled from the spec: Retryable outcome handling (section 4.3): the
actual phase is unchanged, message is set to the reason and the lease is
released early (the lock timestamp is cleared rather than held for the full
lease); the updatedAt audit timestamp is bumped, as section 3 requires on
every write to message. -/
def applyRetryable {State Phase : Type} (r : ResourceRecord State Phase)
    (reason : String) (now : Nat) : ResourceRecord State Phase :=
  { r with message := some reason, lockedAt := none, updatedAt := now }

/-- Claim C5: a Retryable outcome leaves actualPhase unchanged, sets message
to the reason and releases the lease early; every other reconciliation-state
field (desiredState as well as the identity and creation audit fields) is
unmodified. -/
theorem retryable_only_sets_message_and_releases {State Phase : Type}
    (r : ResourceRecord State Phase) (reason : String) (now : Nat) :
    (applyRetryable r reason now).actualPhase = r.actualPhase ∧
    (applyRetryable r reason now).desiredState = r.desiredState ∧
    (applyRetryable r reason now).id = r.id ∧
    (applyRetryable r reason now).ownerKey = r.ownerKey ∧
    (applyRetryable r reason now).createdAt = r.createdAt ∧
    (applyRetryable r reason now).message = some reason ∧
    (applyRetryable r reason now).lockedAt = none :=
  ⟨rfl, rfl, rfl, rfl, rfl, rfl, rfl⟩

/-! ### Transition Executor for the generic lifecycle table (spec section 4.3) -/

/-- Modelled from the spec: the generic desired states of the lifecycle table
in section 4.3 (Active/Running or Deleted). -/
inductive GenDesired where
  | Active
  | Deleted
deriving DecidableEq

/-- The generic actual phases of the lifecycle table in section 4.3; they
match the source's ApplicationPhase and StoragePhase members (which contain no
Failed member). -/
inductive GenPhase where
  | Creating
  | Created
  | Starting
  | Started
  | Deleting
  | Deleted
deriving DecidableEq

/-- Modelled from the spec: the transition table of section 4.3, giving the
next phase on success, or none when the record is converged and no action is
scheduled. -/
def nextPhaseOnSuccess : GenDesired → GenPhase → Option GenPhase
  | .Active, .Creating => some .Created
  | .Active, .Created => none
  | .Active, .Starting => some .Started
  | .Active, .Started => none
  | .Active, .Deleting => none
  | .Active, .Deleted => none
  | .Deleted, .Deleting => some .Deleted
  | .Deleted, .Deleted => none
  | .Deleted, _ => some .Deleting

/-- Modelled from the spec: outcome handling of section 4.3 for a kind without
a Failed phase member (the source's Application and Storage phase enums): on
Success the phase advances to the table's next phase, on Retryable it is
unchanged, and on Fatal it is likewise left in place (the error is recorded in
message; no Failed member exists to move to). -/
def execStep (d : GenDesired) (p : GenPhase) (o : Outcome) : GenPhase :=
  match nextPhaseOnSuccess d p, o with
  | none, _ => p
  | some q, .Success => q
  | some _, .Retryable _ => p
  | some _, .Fatal _ => p

/-- Run the Transition Executor over a sequence of driver outcomes while the
desired state stays fixed. -/
def runExec (d : GenDesired) (p : GenPhase) (os : List Outcome) : GenPhase :=
  os.foldl (execStep d) p

/-- The deleting/deleted phases. -/
def GenPhase.isDeletedOrDeleting : GenPhase → Bool
  | .Deleting => true
  | .Deleted => true
  | _ => false

lemma execStep_deleted_stays {p : GenPhase} {o : Outcome}
    (h : GenPhase.isDeletedOrDeleting p = true) :
    GenPhase.isDeletedOrDeleting (execStep GenDesired.Deleted p o) = true := by
  cases p <;> simp [GenPhase.isDeletedOrDeleting] at h <;>
    cases o <;> simp [execStep, nextPhaseOnSuccess, GenPhase.isDeletedOrDeleting]

/-- Claim C6: for a record whose desired state is Deleted, no sequence of
engine transitions ever moves the actual phase from a deleting/deleted phase
back to a non-deleted phase. -/
theorem deleted_desired_never_resurrects (p : GenPhase) (os : List Outcome)
    (h : GenPhase.isDeletedOrDeleting p = true) :
    GenPhase.isDeletedOrDeleting (runExec GenDesired.Deleted p os) = true := by
  induction os generalizing p with
  | nil => exact h
  | cons o rest ih =>
    have hstep := execStep_deleted_stays (o := o) h
    simpa [runExec, List.foldl_cons] using ih _ hstep

/-- Witness for C6 at a concrete record: phase Deleting, desired state
Deleted, one successful teardown outcome. -/
theorem deleted_desired_never_resurrects_witness :
    GenPhase.isDeletedOrDeleting
      (runExec GenDesired.Deleted GenPhase.Deleting [Outcome.Success]) = true :=
  deleted_desired_never_resurrects GenPhase.Deleting [Outcome.Success] (by decide)

/-! ### Creation defaults of the reconcilable models (from the schema's
default annotations) -/

/-- Application.state default in the schema. -/
def applicationDefaultState : ApplicationState := .Running

/-- Application.phase default in the schema. -/
def applicationDefaultPhase : ApplicationPhase := .Creating

/-- Subscription.state default in the schema. -/
def subscriptionDefaultState : SubscriptionState := .Created

/-- Subscription.phase default in the schema. -/
def subscriptionDefaultPhase : SubscriptionPhase := .Pending

/-- StorageUser.state default in the schema. -/
def storageUserDefaultState : StorageState := .Active

/-- StorageUser.phase default in the schema. -/
def storageUserDefaultPhase : StoragePhase := .Creating

/-- StorageBucket.state default in the schema. -/
def storageBucketDefaultState : StorageState := .Active

/-- StorageBucket.phase default in the schema. -/
def storageBucketDefaultPhase : StoragePhase := .Creating

/-- Database.state default in the schema. -/
def databaseDefaultState : DatabaseState := .Active

/-- Database.phase default in the schema. -/
def databaseDefaultPhase : DatabasePhase := .Creating

/-- CronTrigger.state default in the schema. -/
def cronTriggerDefaultState : TriggerState := .Active

/-- CronTrigger.phase default in the schema. -/
def cronTriggerDefaultPhase : TriggerPhase := .Creating

/-- RuntimeDomain.state default in the schema. -/
def runtimeDomainDefaultState : DomainState := .Active

/-- RuntimeDomain.phase default in the schema. -/
def runtimeDomainDefaultPhase : DomainPhase := .Creating

/-- BucketDomain.state default in the schema. -/
def bucketDomainDefaultState : DomainState := .Active

/-- BucketDomain.phase default in the schema. -/
def bucketDomainDefaultPhase : DomainPhase := .Creating

/-- WebsiteHosting.state default in the schema. -/
def websiteHostingDefaultState : DomainState := .Active

/-- WebsiteHosting.phase default in the schema. -/
def websiteHostingDefaultPhase : DomainPhase := .Creating

/-- SubscriptionRenewal.phase default in the schema (this model has no
desired-state field). -/
def subscriptionRenewalDefaultPhase : SubscriptionRenewalPhase := .Pending

/-- SubscriptionUpgrade.phase default in the schema (no desired-state field). -/
def subscriptionUpgradeDefaultPhase : SubscriptionUpgradePhase := .Pending

/-- AccountChargeOrder.phase default in the schema (no desired-state field). -/
def accountChargeOrderDefaultPhase : AccountChargePhase := .Pending

/-- Whether an ApplicationState is the deleted desired state. -/
def ApplicationState.isDeleted : ApplicationState → Bool
  | .Deleted => true
  | _ => false

/-- Whether a StorageState is the deleted desired state. -/
def StorageState.isDeleted : StorageState → Bool
  | .Deleted => true
  | _ => false

/-- Whether a SubscriptionState is the deleted desired state. -/
def SubscriptionState.isDeleted : SubscriptionState → Bool
  | .Deleted => true
  | _ => false

/-- Whether a DatabaseState is the deleted desired state. -/
def DatabaseState.isDeleted : DatabaseState → Bool
  | .Deleted => true
  | _ => false

/-- Whether a TriggerState is the deleted desired state. -/
def TriggerState.isDeleted : TriggerState → Bool
  | .Deleted => true
  | _ => false

/-- Whether a DomainState is the deleted desired state. -/
def DomainState.isDeleted : DomainState → Bool
  | .Deleted => true
  | _ => false

/-- The in-progress (non-terminal) application phases, per the source
comments: resources creating, instance starting, stopping, deleting. -/
def ApplicationPhase.isInProgress : ApplicationPhase → Bool
  | .Creating => true
  | .Starting => true
  | .Stopping => true
  | .Deleting => true
  | _ => false

/-- The in-progress storage phases. -/
def StoragePhase.isInProgress : StoragePhase → Bool
  | .Creating => true
  | .Deleting => true
  | _ => false

/-- The in-progress database phases. -/
def DatabasePhase.isInProgress : DatabasePhase → Bool
  | .Creating => true
  | .Deleting => true
  | _ => false

/-- The in-progress trigger phases. -/
def TriggerPhase.isInProgress : TriggerPhase → Bool
  | .Creating => true
  | .Deleting => true
  | _ => false

/-- The in-progress domain phases. -/
def DomainPhase.isInProgress : DomainPhase → Bool
  | .Creating => true
  | .Deleting => true
  | _ => false

/-- The in-progress subscription phase: Pending, before the subscription
becomes Valid. -/
def SubscriptionPhase.isInProgress : SubscriptionPhase → Bool
  | .Pending => true
  | _ => false

/-- The in-progress subscription-renewal phase: Pending, before Paid or
Failed. -/
def SubscriptionRenewalPhase.isInProgress : SubscriptionRenewalPhase → Bool
  | .Pending => true
  | _ => false

/-- The in-progress subscription-upgrade phase: Pending, before Completed or
Failed. -/
def SubscriptionUpgradePhase.isInProgress : SubscriptionUpgradePhase → Bool
  | .Pending => true
  | _ => false

/-- The in-progress charge-order phase: Pending, before Paid or Failed. -/
def AccountChargePhase.isInProgress : AccountChargePhase → Bool
  | .Pending => true
  | _ => false

/-- Claim C8: for every resource kind, a newly created record defaults its
desired state to an initial non-deleted value (for every kind that persists a
desired state) and its actual phase to an initial in-progress value. -/
theorem creation_defaults_initial :
    (applicationDefaultState.isDeleted = false ∧
      applicationDefaultPhase.isInProgress = true) ∧
    (subscriptionDefaultState.isDeleted = false ∧
      subscriptionDefaultPhase.isInProgress = true) ∧
    (storageUserDefaultState.isDeleted = false ∧
      storageUserDefaultPhase.isInProgress = true) ∧
    (storageBucketDefaultState.isDeleted = false ∧
      storageBucketDefaultPhase.isInProgress = true) ∧
    (databaseDefaultState.isDeleted = false ∧
      databaseDefaultPhase.isInProgress = true) ∧
    (cronTriggerDefaultState.isDeleted = false ∧
      cronTriggerDefaultPhase.isInProgress = true) ∧
    (runtimeDomainDefaultState.isDeleted = false ∧
      runtimeDomainDefaultPhase.isInProgress = true) ∧
    (bucketDomainDefaultState.isDeleted = false ∧
      bucketDomainDefaultPhase.isInProgress = true) ∧
    (websiteHostingDefaultState.isDeleted = false ∧
      websiteHostingDefaultPhase.isInProgress = true) ∧
    (subscriptionRenewalDefaultPhase.isInProgress = true ∧
      subscriptionUpgradeDefaultPhase.isInProgress = true ∧
      accountChargeOrderDefaultPhase.isInProgress = true) := by
  decide

/-! ### system-server process-level error handlers (from
src/packages/system-server/src/index.ts) -/

/-- An observable effect of the server process's event handlers. -/
inductive ServerEffect where
  | log (msg : String)
  | exitProcess (code : Nat)
deriving DecidableEq

/-- Whether an effect is a pure log entry. -/
def ServerEffect.isLog : ServerEffect → Bool
  | .log _ => true
  | _ => false

/-- The unhandledRejection handler installed by index.ts: it only calls
logger.error with the caught reason. -/
def onUnhandledRejection (reason : String) : List ServerEffect :=
  [ServerEffect.log ("Caught unhandledRejection: " ++ reason)]

/-- The uncaughtException handler installed by index.ts: it only calls
logger.error with the caught error. -/
def onUncaughtException (err : String) : List ServerEffect :=
  [ServerEffect.log ("Caught uncaughtException: " ++ err)]

/-- The process-level handlers a server process may have installed. -/
structure ProcessHandlers where
  onUnhandled : Option (String → List ServerEffect)
  onUncaught : Option (String → List ServerEffect)

/-- The handlers the system-server installs at startup via process.on. -/
def systemServerHandlers : ProcessHandlers :=
  { onUnhandled := some onUnhandledRejection,
    onUncaught := some onUncaughtException }

/-- Node.js platform semantics for an uncaught exception, modelled: when an
uncaughtException handler is installed the handler's effects run and the
process continues (the Boolean result is true); with no handler the default
action exits the process. -/
def raiseUncaughtException (h : ProcessHandlers) (err : String) :
    List ServerEffect × Bool :=
  match h.onUncaught with
  | some f => (f err, true)
  | none => ([ServerEffect.exitProcess 1], false)

/-- Node.js platform semantics for an unhandled promise rejection, modelled:
when an unhandledRejection handler is installed it runs and the process
continues; with no handler the default action exits the process. -/
def raiseUnhandledRejection (h : ProcessHandlers) (reason : String) :
    List ServerEffect × Bool :=
  match h.onUnhandled with
  | some f => (f reason, true)
  | none => ([ServerEffect.exitProcess 1], false)

/-- Claim C9: for every unhandled promise rejection or uncaught exception in
the system-server process, the installed handlers only log the error and the
process does not exit (it continues serving). -/
theorem process_handlers_only_log_and_survive (err reason : String) :
    (raiseUncaughtException systemServerHandlers err).2 = true ∧
    ((raiseUncaughtException systemServerHandlers err).1.all
      ServerEffect.isLog) = true ∧
    (raiseUnhandledRejection systemServerHandlers reason).2 = true ∧
    ((raiseUnhandledRejection systemServerHandlers reason).1.all
      ServerEffect.isLog) = true := by
  refine ⟨rfl, ?_, rfl, ?_⟩ <;>
    simp [raiseUncaughtException, raiseUnhandledRejection, systemServerHandlers,
      onUncaughtException, onUnhandledRejection, ServerEffect.isLog]

/-! ### DataPanel save handler (from
src/web/src/pages/app/database/CollectionDataList/mods/DataPanel/index.tsx) -/

/-- A JavaScript value produced by JSON.parse. -/
inductive JsValue where
  | jsNull
  | jsBool (b : Bool)
  | jsNum (n : Int)
  | jsStr (s : String)
  | jsArr (elems : List JsValue)
  | jsObj (fields : List (String × JsValue))

/-- JavaScript Object.keys(v).length, modelled: none encodes the TypeError
thrown on null; a string enumerates its character indices; an array its
element indices; numbers and booleans have no own enumerable keys. -/
def objectKeysLength : JsValue → Option Nat
  | .jsNull => none
  | .jsBool _ => some 0
  | .jsNum _ => some 0
  | .jsStr s => some s.length
  | .jsArr es => some es.length
  | .jsObj fs => some fs.length

/-- What the save handler did: which error message (if any) was shown via
globalStore.showError, and with which params (if any) the update mutation was
invoked. -/
structure HandleResult where
  shownError : Option String
  mutationCalledWith : Option JsValue

/-- The DataPanel handleData save handler.  JSON.parse of the edited record
string is modelled by the parse argument (error encodes a throw), and the
awaited updateDataMutation.mutateAsync by the mutateOk argument (false encodes
a rejection, which the surrounding try/catch turns into a shown error).
Inside the try block: a parse throw is caught and shown; Object.keys throwing
on null is likewise caught; a parsed value with zero keys shows the
DataEntry.CreateError message and returns before the mutation; otherwise the
mutation is invoked with the parsed params. -/
def handleData (parse : String → Except String JsValue)
    (mutateOk : JsValue → Bool) (record : String) : HandleResult :=
  match parse record with
  | .error e => { shownError := some e, mutationCalledWith := none }
  | .ok params =>
    match objectKeysLength params with
    | none => { shownError := some "TypeError", mutationCalledWith := none }
    | some 0 =>
      { shownError := some "DataEntry.CreateError", mutationCalledWith := none }
    | some (_ + 1) =>
      if mutateOk params then
        { shownError := none, mutationCalledWith := some params }
      else
        { shownError := some "update rejected", mutationCalledWith := some params }

/-- Claim C10: for every edited record string that fails to parse as JSON or
parses to an object with zero keys, the DataPanel save handler shows an error
message and never invokes the update mutation, leaving the stored document
unchanged. -/
theorem handleData_rejects_unparsable_or_empty
    (parse : String → Except String JsValue) (mutateOk : JsValue → Bool)
    (record : String)
    (h : (∃ e, parse record = Except.error e) ∨
      parse record = Except.ok (JsValue.jsObj [])) :
    (handleData parse mutateOk record).shownError.isSome = true ∧
    (handleData parse mutateOk record).mutationCalledWith = none := by
  rcases h with ⟨e, he⟩ | hobj
  · simp [handleData, he]
  · simp [handleData, hobj, objectKeysLength]

/-- Witness for C10 at a concrete input: a parse result that is the empty
JSON object. -/
theorem handleData_rejects_unparsable_or_empty_witness :
    (handleData (fun _ => Except.ok (JsValue.jsObj [])) (fun _ => true)
      "x").shownError.isSome = true ∧
    (handleData (fun _ => Except.ok (JsValue.jsObj [])) (fun _ => true)
      "x").mutationCalledWith = none :=
  handleData_rejects_unparsable_or_empty
    (fun _ => Except.ok (JsValue.jsObj [])) (fun _ => true) "x" (Or.inr rfl)

end Laf
